import Mathlib

/-!
# Verification of the Pitcher Report data-aggregation core

Shallow embedding of `src/Pitcher_Report_App.py`: the date extractor,
the dataset merge/filter pipeline, and the metric engine (summary
statistics and the expanded strike-zone rate "PZR").

Conventions of the embedding:
* a pandas dataframe becomes a `List PitchRecord`, in row order;
* nullable columns become `Option` fields; a missing value (`NaN`/`NaT`)
  is `none`;
* floating-point numbers are modelled as exact rationals `ℚ`;
* a pandas mean/max/min that would be `NaN` (empty or all-null input)
  is modelled as `none`;
* a Python exception escaping a function is modelled with `Except`.
-/

namespace PitcherReport

/-- A calendar date, as produced by Python `datetime(year, month, day)`. -/
structure Date where
  year : Nat
  month : Nat
  day : Nat
deriving DecidableEq, Repr

/-- One row of the merged dataframe.  Fields correspond to the columns the
script reads: `SourceFile`, `SessionDate`, `PitchNo`, `Pitcher`,
`TaggedPitchType`, `RelSpeed`, `HorzBreak`, `InducedVertBreak`,
`PlateLocSide`, `PlateLocHeight`, `SpinRate`, `HorzApprAngle`,
`VertApprAngle`. -/
structure PitchRecord where
  sourceId : String
  sessionDate : Option Date
  pitchSequence : Int
  pitcherName : Option String
  pitchType : Option String
  releaseSpeed : Option ℚ
  horizontalBreak : Option ℚ
  inducedVerticalBreak : Option ℚ
  plateLocSide : Option ℚ
  plateLocHeight : Option ℚ
  spinRate : Option ℚ
  horizontalApproachAngle : Option ℚ
  verticalApproachAngle : Option ℚ
deriving DecidableEq, Repr

/-! ## PZR (expanded strike zone) — lines 95–113 of the source -/

/-- Constant `margin_in = 2.85` (inches). -/
def margin_in : ℚ := 2.85

/-- Constant `margin_ft = margin_in / 12` (feet). -/
def margin_ft : ℚ := margin_in / 12

/-- Constant `sx_left = -8.5 - margin_in`. -/
def sx_left : ℚ := -8.5 - margin_in

/-- Constant `sx_right = 8.5 + margin_in`. -/
def sx_right : ℚ := 8.5 + margin_in

/-- Constant `sz_bot = 1.5 - margin_ft`. -/
def sz_bot : ℚ := 1.5 - margin_ft

/-- Constant `sz_top = 3.5 + margin_ft`. -/
def sz_top : ℚ := 3.5 + margin_ft

/-- The boolean zone membership computed row-wise by `compute_pzr`:
`px = PlateLocSide * 12` and the mask
`(px >= sx_left) & (px <= sx_right) & (pz >= sz_bot) & (pz <= sz_top)`. -/
def pzrTest (side height : ℚ) : Bool :=
  let px := side * 12
  decide (sx_left ≤ px) && decide (px ≤ sx_right) &&
    decide (sz_bot ≤ height) && decide (height ≤ sz_top)

/-- Zone membership of a dataframe row.  A pandas comparison with a
missing (`NaN`) value is `False`, so a row with a null plate-location
field is never in the mask. -/
def rowInZone (r : PitchRecord) : Bool :=
  match r.plateLocSide with
  | none => false
  | some side =>
    match r.plateLocHeight with
    | none => false
    | some height => pzrTest side height

/-- Function `compute_pzr(sub) = pzr_mask.mean() * 100`.  The mean of an empty
boolean series is `NaN` (`none`); on a non-empty series it is the
fraction of `True` entries. -/
def compute_pzr (sub : List PitchRecord) : Option ℚ :=
  if sub.isEmpty then none
  else some (((sub.countP (fun r => rowInZone r) : ℚ) / (sub.length : ℚ)) * 100)

/-! ## Filter pipeline — lines 62–92 of the source -/

/-- Total order key used when sorting the available session dates. -/
def Date.key (d : Date) : Nat :=
  (d.year * 100 + d.month) * 100 + d.day

/-- Source: `available_dates = sorted(df["SessionDate"].dropna().unique())`:
the distinct non-null session dates, first occurrence first, then sorted
ascending. -/
def availableDates (df : List PitchRecord) : List Date :=
  ((df.filterMap (fun r => r.sessionDate)).dedup).insertionSort
    (fun a b => a.key ≤ b.key)

/-- Source: `df = df[df["SessionDate"].isin(selected_dates)]`.  `isin` compares a
null (`NaT`) session date with the concrete dates of the selection and
finds no match, so null-date rows are dropped. -/
def filterByDates (df : List PitchRecord) (sel : List Date) : List PitchRecord :=
  df.filter (fun r =>
    match r.sessionDate with
    | some d => decide (d ∈ sel)
    | none => false)

/-- Source: `p = df[df["Pitcher"] == selected_pitcher]`; a null pitcher name never
equals a concrete string. -/
def filterByPitcher (df : List PitchRecord) (pitcher : String) : List PitchRecord :=
  df.filter (fun r => decide (r.pitcherName = some pitcher))

/-- Reassignment `p["PitchNo"] = range(1, len(p) + 1)`, starting at `n`. -/
def reindexFrom (n : Int) : List PitchRecord → List PitchRecord
  | [] => []
  | r :: rs => { r with pitchSequence := n } :: reindexFrom (n + 1) rs

/-- The clean-and-reorder block (lines 83–86):
`p = p[p["TaggedPitchType"].notna()]`,
`p = p[p["RelSpeed"].notna()]`,
`p = p.sort_values("PitchNo")`,
`p["PitchNo"] = range(1, len(p) + 1)`.
The sort is modelled as a sort by `pitchSequence`; note that pandas'
default sort kind (`quicksort`) makes no stability promise for rows with
equal keys, so properties proved here must not depend on tie order. -/
def cleanAndReindex (p : List PitchRecord) : List PitchRecord :=
  let kept := (p.filter (fun r => r.pitchType.isSome)).filter
    (fun r => r.releaseSpeed.isSome)
  let sorted := kept.insertionSort (fun a b => a.pitchSequence ≤ b.pitchSequence)
  reindexFrom 1 sorted

/-! ## Metric engine — summary statistics -/

/-- Mean of a nullable column, pandas semantics: nulls are skipped, and
the mean of an empty or all-null column is `NaN` (`none`). -/
def meanOpt (l : List (Option ℚ)) : Option ℚ :=
  if (l.filterMap id).isEmpty then none
  else some ((l.filterMap id).sum / ((l.filterMap id).length : ℚ))

/-- Max of a nullable column, pandas semantics (nulls skipped, `NaN` when
nothing remains). -/
def maxOpt (l : List (Option ℚ)) : Option ℚ :=
  (l.filterMap id).max?

/-- Min of a nullable column, pandas semantics. -/
def minOpt (l : List (Option ℚ)) : Option ℚ :=
  (l.filterMap id).min?

/-- The overall summary values of lines 89–92 and 115: `len(p)`,
`p["RelSpeed"].mean()/max()/min()`, `compute_pzr(p)`. -/
structure Report where
  totalPitches : Nat
  avgVelo : Option ℚ
  maxVelo : Option ℚ
  minVelo : Option ℚ
  overallPzr : Option ℚ
deriving DecidableEq, Repr

/-- The explicit "no data for this selection" outcome of the
`if p.empty: st.warning(...); st.stop()` guard on lines 78–80. -/
inductive EmptyResultError where
  | emptyResult
deriving DecidableEq, Repr

/-- The script's main computation path for one selection, lines 70–115:
date filter, pitcher filter, the empty guard, clean-and-reindex, then the
overall summary statistics. -/
def runPipeline (df : List PitchRecord) (sel : List Date) (pitcher : String) :
    Except EmptyResultError Report :=
  let dfd := filterByDates df sel
  let p := filterByPitcher dfd pitcher
  if p.isEmpty then .error .emptyResult
  else
    let p2 := cleanAndReindex p
    .ok { totalPitches := p2.length
          avgVelo := meanOpt (p2.map (fun r => r.releaseSpeed))
          maxVelo := maxOpt (p2.map (fun r => r.releaseSpeed))
          minVelo := minOpt (p2.map (fun r => r.releaseSpeed))
          overallPzr := compute_pzr p2 }

/-- C1: the strike-zone membership test is closed-interval inclusive on the
expanded zone: a row is in zone iff `plateLocSide*12 ∈ [-11.35, 11.35]`
(inches) and `plateLocHeight ∈ [1.2625, 3.7375]` (feet); in particular a
row at `plateLocSide = 11.35/12`, `plateLocHeight = 3.7375` is IN zone,
and a row at `plateLocSide = 11.36/12` is OUT (at every height). -/
theorem C1_pzr_zone_closed_interval :
    (∀ side height : ℚ, pzrTest side height = true ↔
      (-11.35 ≤ side * 12 ∧ side * 12 ≤ 11.35 ∧
        1.2625 ≤ height ∧ height ≤ 3.7375)) ∧
    pzrTest (11.35 / 12) 3.7375 = true ∧
    (∀ height : ℚ, pzrTest (11.36 / 12) height = false) := by
  refine ⟨fun side height => ?_, ?_, fun height => ?_⟩
  · simp only [pzrTest, sx_left, sx_right, sz_bot, sz_top, margin_in, margin_ft,
      Bool.and_eq_true, decide_eq_true_eq]
    norm_num
    tauto
  · simp only [pzrTest, sx_left, sx_right, sz_bot, sz_top, margin_in, margin_ft,
      Bool.and_eq_true, decide_eq_true_eq]
    norm_num
  · simp only [pzrTest, sx_left, sx_right, sz_bot, sz_top, margin_in, margin_ft,
      Bool.and_eq_true, decide_eq_true_eq]
    norm_num

/-! ## Test fixtures (concrete rows used by witnesses and counterexamples) -/

/-- A row builder with every measurement column null; fixtures override
the fields a scenario needs. -/
def blankRow : PitchRecord where
  sourceId := "session.csv"
  sessionDate := none
  pitchSequence := 1
  pitcherName := some "Smith"
  pitchType := some "Fastball"
  releaseSpeed := some 90
  horizontalBreak := none
  inducedVerticalBreak := none
  plateLocSide := none
  plateLocHeight := none
  spinRate := none
  horizontalApproachAngle := none
  verticalApproachAngle := none

/-- A session date fixture, 2024-03-14. -/
def d0 : Date := ⟨2024, 3, 14⟩

/-- A pitch located in the middle of the zone. -/
def inRow : PitchRecord :=
  { blankRow with
      sessionDate := some d0
      plateLocSide := some 0
      plateLocHeight := some 2 }

/-- A pitch located well outside the zone (two feet off the plate). -/
def outRow : PitchRecord :=
  { blankRow with
      sessionDate := some d0
      plateLocSide := some 2
      plateLocHeight := some 2 }

/-- A row whose `TaggedPitchType` is null: the clean step drops it. -/
def untypedRow : PitchRecord :=
  { blankRow with sessionDate := some d0, pitchType := none }

/-- Auxiliary: the reassigned `PitchNo` column is the arithmetic sequence
`n, n+1, ...` along the list. -/
theorem reindexFrom_map_seq (l : List PitchRecord) :
    ∀ m : Nat, (reindexFrom (Int.ofNat m) l).map (fun r => r.pitchSequence) =
      (List.range' m l.length).map Int.ofNat := by
  induction l with
  | nil => intro m; simp [reindexFrom]
  | cons r rs ih =>
    intro m
    have h1 : (Int.ofNat m + 1) = Int.ofNat (m + 1) := rfl
    rw [List.length_cons, List.range'_succ]
    simp only [reindexFrom, List.map_cons]
    refine congrArg (List.cons _) ?_
    rw [h1, ih (m + 1)]

/-- C5: for every input view, the clean-and-reindex output's
`pitchSequence` column is exactly the dense sequence `1..N`, where `N` is
the number of rows surviving the null-`pitchType` / null-`releaseSpeed`
drops. -/
theorem C5_pitchSequence_dense_one_to_N (p : List PitchRecord) :
    (cleanAndReindex p).map (fun r => r.pitchSequence) =
      (List.range' 1 ((p.filter (fun r => r.pitchType.isSome)).filter
        (fun r => r.releaseSpeed.isSome)).length).map Int.ofNat := by
  unfold cleanAndReindex
  have h1 : (1 : Int) = Int.ofNat 1 := rfl
  rw [h1, reindexFrom_map_seq, List.length_insertionSort]

/-- C3 counterexample: a merged dataset holding one row whose
`sessionDate` is null.  The full available-date set is empty, and
filtering by it drops the row, so the round trip is not the identity. -/
theorem C3_counterexample_null_date_row :
    filterByDates [blankRow] (availableDates [blankRow]) ≠ [blankRow] := by
  decide

/-- C3 (amended): filtering by the full set of available dates is the
identity on every dataset whose rows all carry a non-null session date;
in general it returns the dataset restricted to rows with a non-null
session date (null-date rows are dropped). -/
theorem C3_full_date_selection_roundtrip (df : List PitchRecord)
    (h : ∀ r ∈ df, r.sessionDate.isSome = true) :
    filterByDates df (availableDates df) = df := by
  unfold filterByDates
  rw [List.filter_eq_self]
  intro r hr
  obtain ⟨d, hd⟩ := Option.isSome_iff_exists.mp (h r hr)
  have h1 : d ∈ df.filterMap (fun x => x.sessionDate) :=
    List.mem_filterMap.mpr ⟨r, hr, hd⟩
  have h2 : d ∈ availableDates df := by
    unfold availableDates
    exact (List.mem_insertionSort _).mpr (List.mem_dedup.mpr h1)
  simp [hd, h2]

/-- Closed witness for `C3_full_date_selection_roundtrip` at a concrete
two-row dataset. -/
theorem C3_roundtrip_witness :
    (∀ r ∈ [inRow, outRow], r.sessionDate.isSome = true) ∧
      filterByDates [inRow, outRow] (availableDates [inRow, outRow]) =
        [inRow, outRow] :=
  ⟨by decide, C3_full_date_selection_roundtrip [inRow, outRow] (by decide)⟩

/-- C2 (amended): when the date-plus-pitcher filter combination yields
zero rows, the pipeline stops with the explicit empty-result state and no
statistic is computed.  (The guard runs before the null-value clean step,
so it does not cover rows dropped there — see the counterexample.) -/
theorem C2_empty_selection_stops (df : List PitchRecord) (sel : List Date)
    (pitcher : String)
    (h : filterByPitcher (filterByDates df sel) pitcher = []) :
    runPipeline df sel pitcher = .error .emptyResult := by
  unfold runPipeline
  simp [h]

/-- Closed witness for `C2_empty_selection_stops`: pitcher "Jones" has no
rows in a dataset belonging to "Smith". -/
theorem C2_empty_selection_witness :
    filterByPitcher (filterByDates [inRow] [d0]) "Jones" = [] ∧
      runPipeline [inRow] [d0] "Jones" = .error .emptyResult :=
  ⟨by decide, C2_empty_selection_stops [inRow] [d0] "Jones" (by decide)⟩

/-- C2 counterexample: the empty guard runs before the clean step, so a
selection whose only row has a null `pitchType` passes the guard, the
clean step drops every row, and the report is produced with its
statistics evaluated over zero rows — all `NaN` (`none`), reaching the
report instead of an `EmptyResultError`. -/
theorem C2_counterexample_nan_report :
    runPipeline [untypedRow] [d0] "Smith" =
      .ok { totalPitches := 0, avgVelo := none, maxVelo := none,
            minVelo := none, overallPzr := none } := by
  rfl

/-- C9: PZR is monotonic under appending an in-zone row to a non-empty
group: the new PZR is at least the old one. -/
theorem C9_pzr_monotone_append_inzone (sub : List PitchRecord)
    (r : PitchRecord) (hne : sub ≠ []) (hin : rowInZone r = true) :
    ∃ q q' : ℚ, compute_pzr sub = some q ∧
      compute_pzr (sub ++ [r]) = some q' ∧ q ≤ q' := by
  have hlen : 0 < sub.length := List.length_pos.mpr hne
  have hemp : sub.isEmpty = false := by
    cases sub with
    | nil => exact absurd rfl hne
    | cons a l => rfl
  have hemp2 : (sub ++ [r]).isEmpty = false := by
    cases sub with
    | nil => exact absurd rfl hne
    | cons a l => rfl
  refine ⟨((sub.countP (fun x => rowInZone x) : ℚ) / (sub.length : ℚ)) * 100,
    (((sub ++ [r]).countP (fun x => rowInZone x) : ℚ) /
      ((sub ++ [r]).length : ℚ)) * 100, ?_, ?_, ?_⟩
  · simp [compute_pzr, hemp]
  · simp only [compute_pzr, hemp2, Bool.false_eq_true, if_false]
  · have hcount : (sub ++ [r]).countP (fun x => rowInZone x) =
        sub.countP (fun x => rowInZone x) + 1 := by
      rw [List.countP_append]
      simp [List.countP_cons, hin]
    have hlen2 : (sub ++ [r]).length = sub.length + 1 := by
      simp
    rw [hcount, hlen2]
    set k : Nat := sub.countP (fun x => rowInZone x) with hk
    set n : Nat := sub.length with hn
    have hkn : k ≤ n := List.countP_le_length _
    have hq1 : (0 : ℚ) < (n : ℚ) := by exact_mod_cast hlen
    have hq2 : (0 : ℚ) < ((n : ℚ) + 1) := by linarith
    have hkq : (k : ℚ) ≤ (n : ℚ) := by exact_mod_cast hkn
    have hdiv : (k : ℚ) / (n : ℚ) ≤ ((k : ℚ) + 1) / ((n : ℚ) + 1) := by
      rw [div_le_div_iff₀ hq1 hq2]
      nlinarith
    push_cast
    nlinarith [hdiv]

/-- Closed witness for `C9_pzr_monotone_append_inzone`: appending an
in-zone pitch to a one-row out-of-zone group. -/
theorem C9_pzr_monotone_witness :
    [outRow] ≠ ([] : List PitchRecord) ∧ rowInZone inRow = true ∧
      ∃ q q' : ℚ, compute_pzr [outRow] = some q ∧
        compute_pzr ([outRow] ++ [inRow]) = some q' ∧ q ≤ q' :=
  ⟨by decide, by with_unfolding_all rfl,
    C9_pzr_monotone_append_inzone [outRow] inRow (by decide)
      (by with_unfolding_all rfl)⟩

/-- C10 (implicit claim): a row with non-null `pitchType` and
`releaseSpeed` but a null plate-location field survives the clean step's
filters (it is kept iff it was present), is never in the zone mask (null
comparisons are false), yet still counts in the PZR denominator; hence a
non-empty group whose `plateLocSide` is null throughout has PZR exactly
`0`, not a missing value. -/
theorem C10_null_plateloc_counts_out_of_zone (r : PitchRecord)
    (sub : List PitchRecord) (hty : r.pitchType.isSome = true)
    (hsp : r.releaseSpeed.isSome = true)
    (hnull : r.plateLocSide = none ∨ r.plateLocHeight = none) :
    (r ∈ (sub.filter (fun x => x.pitchType.isSome)).filter
        (fun x => x.releaseSpeed.isSome) ↔ r ∈ sub) ∧
    rowInZone r = false ∧
    (sub ≠ [] → (∀ x ∈ sub, x.plateLocSide = none) →
      compute_pzr sub = some 0) := by
  refine ⟨?_, ?_, ?_⟩
  · simp [List.mem_filter, hty, hsp]
  · unfold rowInZone
    rcases hnull with h | h
    · rw [h]
    · rw [h]
      cases hs : r.plateLocSide
      · rfl
      · rfl
  · intro hne hall
    have hemp : sub.isEmpty = false := by
      cases sub with
      | nil => exact absurd rfl hne
      | cons a l => rfl
    have hzero : sub.countP (fun x => rowInZone x) = 0 := by
      rw [List.countP_eq_zero]
      intro x hx
      unfold rowInZone
      rw [hall x hx]
      simp
    unfold compute_pzr
    rw [hemp, hzero]
    norm_num

/-- Closed witness for `C10_null_plateloc_counts_out_of_zone`: a
fully-null-location row in a one-row group. -/
theorem C10_null_plateloc_witness :
    blankRow.pitchType.isSome = true ∧ blankRow.releaseSpeed.isSome = true ∧
      (blankRow.plateLocSide = none ∨ blankRow.plateLocHeight = none) ∧
      ((blankRow ∈ ([blankRow].filter (fun x => x.pitchType.isSome)).filter
          (fun x => x.releaseSpeed.isSome) ↔ blankRow ∈ [blankRow]) ∧
        rowInZone blankRow = false ∧
        ([blankRow] ≠ ([] : List PitchRecord) →
          (∀ x ∈ [blankRow], x.plateLocSide = none) →
          compute_pzr [blankRow] = some 0)) :=
  ⟨by decide, by decide, Or.inl rfl,
    C10_null_plateloc_counts_out_of_zone blankRow [blankRow] (by decide)
      (by decide) (Or.inl rfl)⟩

/-! ## Per-pitch-type summary table — lines 248–284 -/

/-- The value list returned by `summarize(sub)` (lines 248–258):
count, mean velocity, mean induced vertical break, mean horizontal
break, mean spin rate, mean approach angles, and the group PZR. -/
structure SummaryRow where
  count : Nat
  velo : Option ℚ
  ivb : Option ℚ
  hb : Option ℚ
  spin : Option ℚ
  haa : Option ℚ
  vaa : Option ℚ
  pzr : Option ℚ
deriving DecidableEq, Repr

/-- Function `summarize(sub)` of lines 248-258. -/
def summarize (sub : List PitchRecord) : SummaryRow where
  count := sub.length
  velo := meanOpt (sub.map (fun r => r.releaseSpeed))
  ivb := meanOpt (sub.map (fun r => r.inducedVerticalBreak))
  hb := meanOpt (sub.map (fun r => r.horizontalBreak))
  spin := meanOpt (sub.map (fun r => r.spinRate))
  haa := meanOpt (sub.map (fun r => r.horizontalApproachAngle))
  vaa := meanOpt (sub.map (fun r => r.verticalApproachAngle))
  pzr := compute_pzr sub

/-- What a table cell of `table_str` shows: a formatted number, the
string a float `nan` formats to, or the "–" sentinel. -/
inductive Cell where
  | num (q : ℚ)
  | nan
  | dash
deriving DecidableEq, Repr

/-- An unguarded format `f"{x:...}"`: a `NaN` value is formatted as the
string "nan". -/
def fmtPlain : Option ℚ → Cell
  | none => Cell.nan
  | some q => Cell.num q

/-- A guarded format `f"{x:...}" if not np.isnan(x) else "–"`. -/
def fmtGuarded : Option ℚ → Cell
  | none => Cell.dash
  | some q => Cell.num q

/-- One row of `table_str` (lines 272–284).  Only the Spin, HAA and VAA
columns carry the `np.isnan` guard; Count, Velo, IVB, HB and PZR% are
formatted unguarded. -/
structure RenderedRow where
  countCell : Cell
  veloCell : Cell
  ivbCell : Cell
  hbCell : Cell
  spinCell : Cell
  haaCell : Cell
  vaaCell : Cell
  pzrCell : Cell
deriving DecidableEq, Repr

/-- The rendering of one summary row into `table_str`. -/
def renderRow (s : SummaryRow) : RenderedRow where
  countCell := Cell.num s.count
  veloCell := fmtPlain s.velo
  ivbCell := fmtPlain s.ivb
  hbCell := fmtPlain s.hb
  spinCell := fmtGuarded s.spin
  haaCell := fmtGuarded s.haa
  vaaCell := fmtGuarded s.vaa
  pzrCell := fmtPlain s.pzr

/-- The mean of a column whose entries are all null is `NaN` (`none`). -/
theorem meanOpt_all_none (l : List (Option ℚ)) (h : ∀ x ∈ l, x = none) :
    meanOpt l = none := by
  have hnil : l.filterMap id = [] := by
    rw [List.filterMap_eq_nil_iff]
    intro a ha
    exact h a ha
  simp [meanOpt, hnil]

/-- C6 counterexample: a group whose `InducedVertBreak` column is all
null.  Its mean is `NaN`, and the IVB column of `table_str` has no
`np.isnan` guard, so the cell renders as the propagated "nan" — not the
"–" sentinel the claim promises for every all-null mean. -/
theorem C6_counterexample_ivb_nan_cell :
    (renderRow (summarize [blankRow])).ivbCell = Cell.nan ∧
      Cell.nan ≠ Cell.dash :=
  ⟨rfl, by decide⟩

/-- C6 (amended): only the Spin, HAA and VAA columns render an all-null
mean as the "–" sentinel; an all-null IVB or HB column renders as a
propagated "nan"; the velocity mean is over a never-all-null column
whenever the group's rows all carry a release speed (as rows of the
cleaned view do), and then renders as a number.  No column ever renders
a missing mean as zero. -/
theorem C6_allnull_mean_rendering (sub : List PitchRecord) (hne : sub ≠ []) :
    ((∀ r ∈ sub, r.spinRate = none) →
      (renderRow (summarize sub)).spinCell = Cell.dash) ∧
    ((∀ r ∈ sub, r.horizontalApproachAngle = none) →
      (renderRow (summarize sub)).haaCell = Cell.dash) ∧
    ((∀ r ∈ sub, r.verticalApproachAngle = none) →
      (renderRow (summarize sub)).vaaCell = Cell.dash) ∧
    ((∀ r ∈ sub, r.inducedVerticalBreak = none) →
      (renderRow (summarize sub)).ivbCell = Cell.nan) ∧
    ((∀ r ∈ sub, r.horizontalBreak = none) →
      (renderRow (summarize sub)).hbCell = Cell.nan) ∧
    ((∀ r ∈ sub, r.releaseSpeed.isSome = true) →
      ∃ q : ℚ, (renderRow (summarize sub)).veloCell = Cell.num q) := by
  refine ⟨?_, ?_, ?_, ?_, ?_, ?_⟩
  · intro h
    have hm : (summarize sub).spin = none := by
      refine meanOpt_all_none _ fun x hx => ?_
      obtain ⟨r, hr, rfl⟩ := List.mem_map.mp hx
      exact h r hr
    show fmtGuarded (summarize sub).spin = Cell.dash
    rw [hm]
    rfl
  · intro h
    have hm : (summarize sub).haa = none := by
      refine meanOpt_all_none _ fun x hx => ?_
      obtain ⟨r, hr, rfl⟩ := List.mem_map.mp hx
      exact h r hr
    show fmtGuarded (summarize sub).haa = Cell.dash
    rw [hm]
    rfl
  · intro h
    have hm : (summarize sub).vaa = none := by
      refine meanOpt_all_none _ fun x hx => ?_
      obtain ⟨r, hr, rfl⟩ := List.mem_map.mp hx
      exact h r hr
    show fmtGuarded (summarize sub).vaa = Cell.dash
    rw [hm]
    rfl
  · intro h
    have hm : (summarize sub).ivb = none := by
      refine meanOpt_all_none _ fun x hx => ?_
      obtain ⟨r, hr, rfl⟩ := List.mem_map.mp hx
      exact h r hr
    show fmtPlain (summarize sub).ivb = Cell.nan
    rw [hm]
    rfl
  · intro h
    have hm : (summarize sub).hb = none := by
      refine meanOpt_all_none _ fun x hx => ?_
      obtain ⟨r, hr, rfl⟩ := List.mem_map.mp hx
      exact h r hr
    show fmtPlain (summarize sub).hb = Cell.nan
    rw [hm]
    rfl
  · intro h
    cases sub with
    | nil => exact absurd rfl hne
    | cons a l =>
      obtain ⟨q, hq⟩ := Option.isSome_iff_exists.mp (h a (List.mem_cons_self a l))
      have hmem : q ∈ ((a :: l).map (fun r => r.releaseSpeed)).filterMap id :=
        List.mem_filterMap.mpr ⟨some q, by simp [hq], rfl⟩
      have hv : ∃ v, meanOpt ((a :: l).map (fun r => r.releaseSpeed)) = some v := by
        cases hL : ((a :: l).map (fun r => r.releaseSpeed)).filterMap id with
        | nil => rw [hL] at hmem; cases hmem
        | cons b t =>
          refine ⟨(b :: t).sum / ((b :: t).length : ℚ), ?_⟩
          unfold meanOpt
          rw [hL]
          rfl
      obtain ⟨v, hv⟩ := hv
      refine ⟨v, ?_⟩
      show fmtPlain (summarize (a :: l)).velo = Cell.num v
      have hv2 : (summarize (a :: l)).velo = some v := hv
      rw [hv2]
      rfl

/-- Closed witness for `C6_allnull_mean_rendering`: the one-row group
whose spin column is null renders the Spin cell as the sentinel. -/
theorem C6_allnull_mean_witness :
    [blankRow] ≠ ([] : List PitchRecord) ∧
      (∀ r ∈ [blankRow], r.spinRate = none) ∧
      (renderRow (summarize [blankRow])).spinCell = Cell.dash :=
  ⟨by decide, by decide,
    (C6_allnull_mean_rendering [blankRow] (by decide)).1 (by decide)⟩

/-! ## Date extractor — lines 17–24

`extract_date` runs `re.search(r"(\d{1,2})_(\d{1,2})_(\d{2,4})", filename)`,
prefixes "20" to a two-digit year group, and calls
`datetime(int(year), int(month), int(day))`, which raises `ValueError`
when the values do not form a valid calendar date.  The regex engine is
modelled exactly for this one pattern: leftmost match wins, and each
bounded repetition is greedy with backtracking. -/

/-- Take exactly `n` decimal digits off the front of `s`. -/
def takeDigits : Nat → List Char → Option (List Char × List Char)
  | 0, s => some ([], s)
  | _ + 1, [] => none
  | n + 1, c :: cs =>
    if c.isDigit then
      match takeDigits n cs with
      | some (ds, rest) => some (c :: ds, rest)
      | none => none
    else none

/-- A bounded repetition of `\d`, trying the repetition counts of `lens`
in order (longest first = greedy) and backtracking into the continuation
`k`. -/
def tryLens {α : Type} (lens : List Nat) (s : List Char)
    (k : List Char → List Char → Option α) : Option α :=
  match lens with
  | [] => none
  | n :: ns =>
    match takeDigits n s with
    | some (ds, rest) =>
      match k ds rest with
      | some x => some x
      | none => tryLens ns s k
    | none => tryLens ns s k

/-- One attempt of `(\d{1,2})_(\d{1,2})_(\d{2,4})` anchored at the head
of `s`; returns the three groups. -/
def matchAt (s : List Char) : Option (List Char × List Char × List Char) :=
  tryLens [2, 1] s fun g1 r1 =>
    match r1 with
    | '_' :: r2 =>
      tryLens [2, 1] r2 fun g2 r3 =>
        match r3 with
        | '_' :: r4 => tryLens [4, 3, 2] r4 fun g3 _ => some (g1, g2, g3)
        | _ => none
    | _ => none

/-- Model of `re.search`: scan left to right, first position with a match wins. -/
def searchMDY : List Char → Option (List Char × List Char × List Char)
  | [] => none
  | c :: cs =>
    match matchAt (c :: cs) with
    | some g => some g
    | none => searchMDY cs

/-- Conversion `int(...)` on a digit string. -/
def digitsToNat (ds : List Char) : Nat :=
  ds.foldl (fun acc c => 10 * acc + (c.toNat - '0'.toNat)) 0

/-- The Gregorian leap-year rule used by Python `datetime`. -/
def isLeapYear (y : Nat) : Bool :=
  y % 4 == 0 && (y % 100 != 0 || y % 400 == 0)

/-- Days in a month, Python `datetime` semantics. -/
def daysInMonth (y m : Nat) : Nat :=
  if m = 2 then (if isLeapYear y then 29 else 28)
  else if m = 4 ∨ m = 6 ∨ m = 9 ∨ m = 11 then 30
  else 31

/-- The argument ranges `datetime(year, month, day)` accepts without
raising `ValueError`. -/
def validDate (y m d : Nat) : Bool :=
  decide (1 ≤ y) && decide (y ≤ 9999) && decide (1 ≤ m) && decide (m ≤ 12) &&
    decide (1 ≤ d) && decide (d ≤ daysInMonth y m)

/-- A Python exception escaping `extract_date`. -/
inductive PyError where
  | valueError
deriving DecidableEq, Repr

/-- The body of `extract_date` on the filename's characters: on a match,
prefix "20" to a two-digit year group, convert the groups with `int`,
and build the date — `.error` models the uncaught `ValueError` from
`datetime` on a matched token with invalid date values. -/
def extractDateCore (cs : List Char) : Except PyError (Option Date) :=
  match searchMDY cs with
  | none => .ok none
  | some (mo, dy, yr) =>
    let yr2 := if yr.length = 2 then '2' :: '0' :: yr else yr
    if validDate (digitsToNat yr2) (digitsToNat mo) (digitsToNat dy)
    then .ok (some ⟨digitsToNat yr2, digitsToNat mo, digitsToNat dy⟩)
    else .error .valueError

/-- Function `extract_date(filename)` (lines 17–24); `.ok none` is the `None`
return on no match. -/
def extract_date (filename : String) : Except PyError (Option Date) :=
  extractDateCore filename.toList

/-- On a string that is exactly a `month_day_year` token of digit groups
of the pattern's lengths, the regex search matches at position 0 and the
groups are exactly the three segments. -/
theorem searchMDY_token (mo dy yr : List Char)
    (hmo : ∀ c ∈ mo, c.isDigit = true) (hdy : ∀ c ∈ dy, c.isDigit = true)
    (hyr : ∀ c ∈ yr, c.isDigit = true)
    (hmol : (∃ a, mo = [a]) ∨ (∃ a b, mo = [a, b]))
    (hdyl : (∃ a, dy = [a]) ∨ (∃ a b, dy = [a, b]))
    (hyrl : (∃ u v, yr = [u, v]) ∨ (∃ u v w x, yr = [u, v, w, x])) :
    searchMDY (mo ++ '_' :: dy ++ '_' :: yr) = some (mo, dy, yr) := by
  have hund : ('_' : Char).isDigit = false := by decide
  rcases hmol with ⟨a, rfl⟩ | ⟨a, b, rfl⟩ <;>
    rcases hdyl with ⟨p, rfl⟩ | ⟨p, q, rfl⟩ <;>
    rcases hyrl with ⟨u, v, rfl⟩ | ⟨u, v, w, x, rfl⟩ <;>
    simp_all [searchMDY, matchAt, tryLens, takeDigits]

/-- C7: two-digit years expand by prefixing "20" (numerically `+2000`):
for every 1-or-2-digit month group and day group and every two digits
`YY`, the tokens `m_d_YY` and `m_d_20YY` give the same `extract_date`
result, and the prefixed year reads as `2000 + YY`. -/
theorem C7_two_digit_year_expands_plus2000 (mo dy : List Char) (c1 c2 : Char)
    (hmo : ∀ c ∈ mo, c.isDigit = true) (hdy : ∀ c ∈ dy, c.isDigit = true)
    (hc1 : c1.isDigit = true) (hc2 : c2.isDigit = true)
    (hmol : (∃ a, mo = [a]) ∨ (∃ a b, mo = [a, b]))
    (hdyl : (∃ a, dy = [a]) ∨ (∃ a b, dy = [a, b])) :
    extract_date (String.mk (mo ++ '_' :: dy ++ '_' :: [c1, c2])) =
      extract_date (String.mk (mo ++ '_' :: dy ++ '_' :: ['2', '0', c1, c2])) ∧
    digitsToNat ['2', '0', c1, c2] = 2000 + digitsToNat [c1, c2] := by
  constructor
  · have hyL : ∀ c ∈ [c1, c2], c.isDigit = true := by
      intro c hc
      rcases List.mem_pair.mp hc with rfl | rfl
      · exact hc1
      · exact hc2
    have hyR : ∀ c ∈ ['2', '0', c1, c2], c.isDigit = true := by
      intro c hc
      simp only [List.mem_cons, List.not_mem_nil, or_false] at hc
      rcases hc with rfl | rfl | rfl | rfl
      · decide
      · decide
      · exact hc1
      · exact hc2
    have hL := searchMDY_token mo dy [c1, c2] hmo hdy hyL hmol hdyl
      (Or.inl ⟨c1, c2, rfl⟩)
    have hR := searchMDY_token mo dy ['2', '0', c1, c2] hmo hdy hyR hmol hdyl
      (Or.inr ⟨'2', '0', c1, c2, rfl⟩)
    show extractDateCore (mo ++ '_' :: dy ++ '_' :: [c1, c2]) =
      extractDateCore (mo ++ '_' :: dy ++ '_' :: ['2', '0', c1, c2])
    unfold extractDateCore
    rw [hL, hR]
    simp
  · have h2 : ('2' : Char).toNat = 50 := rfl
    have h0 : ('0' : Char).toNat = 48 := rfl
    simp [digitsToNat, h2, h0]
    omega

/-- Closed witness for `C7_two_digit_year_expands_plus2000`: the tokens
"3_14_24" and "3_14_2024" give the same result, namely 2024-03-14. -/
theorem C7_two_digit_year_witness :
    extract_date "3_14_24" = .ok (some ⟨2024, 3, 14⟩) ∧
      extract_date "3_14_2024" = .ok (some ⟨2024, 3, 14⟩) ∧
      extract_date (String.mk (['3'] ++ '_' :: ['1', '4'] ++ '_' :: ['2', '4'])) =
        extract_date (String.mk (['3'] ++ '_' :: ['1', '4'] ++ '_' ::
          ['2', '0', '2', '4'])) :=
  ⟨by rfl, by rfl,
    (C7_two_digit_year_expands_plus2000 ['3'] ['1', '4'] '2' '4' (by decide)
      (by decide) (by decide) (by decide) (Or.inl ⟨'3', rfl⟩)
      (Or.inr ⟨'1', '4', rfl⟩)).1⟩

/-- C8: the claim says `extract_date` never throws on any filename; the
code does throw.  The filename "13_13_24.csv" matches the pattern, and
`datetime(2024, 13, 13)` raises `ValueError`, which propagates out of
`extract_date` instead of the promised date-or-None result. -/
theorem C8_matched_invalid_token_raises :
    extract_date "13_13_24.csv" = .error .valueError := by
  rfl

end PitcherReport
